import Mathlib

/-!
Verification of the minimal Scheme interpreter in `scm.go` (package main,
the first/canonical variant of the file).  The Go source is shallowly
embedded: the dynamically typed `expr`/`value` interfaces become closed
inductive types, the pointer-linked mutable environments become an explicit
store of frames addressed by index (closures capture the index of their
defining frame, so capture is by reference), and every Go panic
(failed type assertion, slice index out of range, nil-pointer dereference
in `env.Find`) becomes an explicit error value.  `number` is Go `float64`;
it is modelled as the exact rational type `Q` below, which agrees with
float64 arithmetic on every value exercised here (rounding, infinities
and NaN are not exercised by any claim).  Recursion in `eval`/`apply` and
in the reader is bounded by an explicit fuel parameter; `Err.fuel` is an
artifact of the embedding and is never produced when enough fuel is
supplied.
-/

namespace Scm

/-- Exact rationals standing in for Go `float64` (`type number float64`).
Stored in lowest terms with a non-negative denominator, so equal numbers
are structurally equal.  All operations are elementary recursive
functions, so concrete interpreter runs evaluate inside proofs. -/
structure Q where
  n : Int
  d : Nat
deriving DecidableEq

instance (k : Nat) : OfNat Q k := ⟨⟨Int.ofNat k, 1⟩⟩

/-- Put `n / d` in lowest terms (the representation invariant). -/
def qnorm (n : Int) (d : Nat) : Q :=
  let g : Nat := Nat.gcd n.natAbs d
  ⟨n / (g : Int), d / g⟩

/-- Addition of number values (`v += i.(number)`). -/
def qadd (a b : Q) : Q := qnorm (a.n * (b.d : Int) + b.n * (a.d : Int)) (a.d * b.d)

/-- Subtraction of number values (`v -= i.(number)`). -/
def qsub (a b : Q) : Q := qnorm (a.n * (b.d : Int) - b.n * (a.d : Int)) (a.d * b.d)

/-- Multiplication of number values (`v *= i.(number)`). -/
def qmul (a b : Q) : Q := qnorm (a.n * b.n) (a.d * b.d)

/-- Division of number values (`v /= i.(number)`); exact where float64
division is exact.  Division by zero (float64 infinity, exercised by no
claim) is collapsed to a zero-denominator representative. -/
def qdiv (a b : Q) : Q :=
  let n : Int := a.n * (b.d : Int)
  let d : Int := (a.d : Int) * b.n
  if d < 0 then qnorm (-n) (-d).toNat else qnorm n d.toNat

/-- The `<=` comparison on number values, by cross multiplication. -/
def qle (a b : Q) : Bool :=
  decide (a.n * (b.d : Int) ≤ b.n * (a.d : Int))

instance : Add Q := ⟨qadd⟩
instance : Sub Q := ⟨qsub⟩
instance : Mul Q := ⟨qmul⟩
instance : Div Q := ⟨qdiv⟩

/-- Go `type symbol string`; symbols are plain strings. -/
abbrev Symbol := String

/-- Go `expr interface{}`: the dynamic type of syntax trees produced by the
reader.  `num`, `sym` and `list` mirror `number`, `symbol` and `[]expr`.
Because `expr` is an open interface in Go, other dynamic types can reach
`eval`; `bool` and `nil` (the nil interface value, which `readFrom` returns
on an unexpected close paren) are included so that the behaviour of
`eval`'s default branch on them can be stated. -/
inductive Expr where
  | num (q : Q)
  | sym (s : Symbol)
  | list (es : List Expr)
  | bool (b : Bool)
  | nil

/-- The compiled-in primitive procedures of `globalenv`: `+ - * / <=`. -/
inductive Prim where
  | add
  | sub
  | mul
  | div
  | le
deriving DecidableEq

/-- Go `value interface{}`: runtime values.  `str` is a plain Go `string`
(the `"ok"` returned by `set!`/`define`), distinct from `sym` exactly as
Go's `string` is a different dynamic type from `symbol`.  `closure` is the
Go struct `proc{params []symbol; body expr; en *env}` with the captured
environment represented by its frame index in the store.  `nil` is the nil
interface value (zero value of `value`), returned by the logging default
branches of `eval` and `apply`. -/
inductive Value where
  | num (q : Q)
  | sym (s : Symbol)
  | str (s : String)
  | bool (b : Bool)
  | list (es : List Expr)
  | prim (p : Prim)
  | closure (params : List Symbol) (body : Expr) (en : Nat)
  | nil

/-- Runtime failures of the Go program.  `nilDeref` is the nil-pointer
dereference panic raised when `env.Find` walks past the outermost
environment (the program's unbound-symbol failure); `typeAssert` is a
failed interface type assertion panic; `indexOutOfRange` is a slice
index-out-of-range panic; `fuel` is the embedding's fuel exhaustion and
corresponds to no Go behaviour. -/
inductive Err where
  | fuel
  | nilDeref
  | typeAssert
  | indexOutOfRange
deriving DecidableEq

/-- Go `type vars map[symbol]value`, as an association list with unique
keys (first match wins on lookup, in-place overwrite on update). -/
abbrev Vars := List (Symbol × Value)

/-- Go `type env struct { vars; outer *env }`.  The `outer` pointer is the
index of the parent frame in the store (`none` for the global frame). -/
structure Frame where
  vars : Vars
  outer : Option Nat

/-- The heap of environment frames.  Go reaches frames through pointers;
here a frame is addressed by its index, and mutation of a `vars` map is
replacement of the frame at its index. -/
abbrev Store := List Frame

/-- Map lookup in one `vars` map. -/
def varsLookup : Vars → Symbol → Option Value
  | [], _ => none
  | (k, v) :: rest, s => if k = s then some v else varsLookup rest s

/-- Map update `m[s] = v` in one `vars` map: overwrite in place, or add. -/
def varsSet : Vars → Symbol → Value → Vars
  | [], s, v => [(s, v)]
  | (k, w) :: rest, s, v =>
    if k = s then (s, v) :: rest else (k, w) :: varsSet rest s v

/-- Go `func (e env) Find(s symbol) env`: if the frame binds `s` return it,
else recurse into `outer`; reaching a nil `outer` is a nil-pointer
dereference panic, reported as `none`.  The walk is bounded by an explicit
fuel; `envFind` supplies `length + 1`, enough for every acyclic chain (Go's
`Find` would not terminate on a cyclic chain, which no reachable store
contains since frames only point to previously allocated frames). -/
def envFindAux (st : Store) : Nat → Nat → Symbol → Option Nat
  | 0, _, _ => none
  | n + 1, r, s =>
    match st.get? r with
    | none => none
    | some f =>
      if (varsLookup f.vars s).isSome then some r
      else
        match f.outer with
        | none => none
        | some p => envFindAux st n p s

/-- The index of the nearest frame in the chain starting at `r` that binds
`s`, walking `outer` links exactly as `env.Find` does. -/
def envFind (st : Store) (r : Nat) (s : Symbol) : Option Nat :=
  envFindAux st (st.length + 1) r s

/-- Read `st[j].vars[s]`; a missing key yields the map's zero value `nil`
exactly as a Go map read does (unreachable after a successful `Find`). -/
def storeGetVar (st : Store) (j : Nat) (s : Symbol) : Value :=
  match st.get? j with
  | none => .nil
  | some f => (varsLookup f.vars s).getD .nil

/-- Perform `st[j].vars[s] = v`: replace frame `j` with the updated map.
Other frames are untouched. -/
def storeSet : Store → Nat → Symbol → Value → Store
  | [], _, _, _ => []
  | f :: fs, 0, s, v => ⟨varsSet f.vars s v, f.outer⟩ :: fs
  | f :: fs, j + 1, s, v => f :: storeSet fs j s v

/-- The loop `for i := range p.params { en.vars[p.params[i]] = args[i] }`
of `apply`: bind parameters positionally into the accumulator map.  Running
out of arguments while parameters remain is the `args[i]` index
out-of-range panic; extra arguments beyond the parameters are ignored. -/
def bindArgs : List Symbol → List Value → Vars → Except Err Vars
  | [], _, acc => .ok acc
  | _ :: _, [], _ => .error .indexOutOfRange
  | p :: ps, a :: bs, acc => bindArgs ps bs (varsSet acc p a)

/-- The `for _, i := range a[1:] { v op= i.(number) }` reducer loop shared
by the four arithmetic primitives; each element must pass the
`i.(number)` type assertion. -/
def foldNums (f : Q → Q → Q) : Q → List Value → Except Err Q
  | acc, [] => .ok acc
  | acc, .num q :: vs => foldNums f (f acc q) vs
  | _, _ :: _ => .error .typeAssert

/-- The bodies of the compiled-in functions of `globalenv`.  Each
arithmetic reducer reads `a[0].(number)` (index panic on an empty argument
slice, type-assertion panic on a non-number) and folds the rest; `<=`
asserts `a[0]` and `a[1]` as numbers. -/
def applyPrim : Prim → List Value → Except Err Value
  | .add, [] => .error .indexOutOfRange
  | .add, a :: bs =>
    match a with
    | .num q => (foldNums (fun x y => x + y) q bs).map Value.num
    | _ => .error .typeAssert
  | .sub, [] => .error .indexOutOfRange
  | .sub, a :: bs =>
    match a with
    | .num q => (foldNums (fun x y => x - y) q bs).map Value.num
    | _ => .error .typeAssert
  | .mul, [] => .error .indexOutOfRange
  | .mul, a :: bs =>
    match a with
    | .num q => (foldNums (fun x y => x * y) q bs).map Value.num
    | _ => .error .typeAssert
  | .div, [] => .error .indexOutOfRange
  | .div, a :: bs =>
    match a with
    | .num q => (foldNums (fun x y => x / y) q bs).map Value.num
    | _ => .error .typeAssert
  | .le, [] => .error .indexOutOfRange
  | .le, a :: bs =>
    match a with
    | .num q =>
      match bs with
      | [] => .error .indexOutOfRange
      | b :: _ =>
        match b with
        | .num p => .ok (.bool (qle q p))
        | _ => .error .typeAssert
    | _ => .error .typeAssert

/-- The literal contents of `var globalenv = env{vars{...}, nil}`: the two
Boolean constants and the five compiled-in functions.  Go map ordering is
irrelevant to lookup since the keys are distinct. -/
def globalVars : Vars :=
  [("#t", .bool true), ("#f", .bool false),
   ("+", .prim .add), ("-", .prim .sub), ("*", .prim .mul), ("/", .prim .div),
   ("<=", .prim .le)]

/-- The initial store: the single global frame, with nil `outer`. -/
def globalenv : Store := [⟨globalVars, none⟩]

/-- Inject a quoted `expr` into `value`; in Go the interface value is
returned unchanged, so each dynamic type maps to itself. -/
def Value.ofExpr : Expr → Value
  | .num q => .num q
  | .sym s => .sym s
  | .list es => .list es
  | .bool b => .bool b
  | .nil => .nil

/-- The `en.Find(s)` idiom: a successful find continues with the found
frame's index; an exhausted chain is the nil-pointer dereference panic of
`e.outer.Find(s)` on a nil `outer`. -/
def foundCase {β : Type} (x : Option Nat) (k : Nat → Except Err β) : Except Err β :=
  match x with
  | none => .error .nilDeref
  | some j => k j

/-- Extract the `params[i] = p.(symbol)` loop of the `lambda` case: every
element of the parameter list must be a symbol, else a type-assertion
panic. -/
def symsOf : List Expr → Option (List Symbol)
  | [] => some []
  | .sym s :: rest => (symsOf rest).map (fun l => s :: l)
  | _ :: _ => none

/-- The operand loop of the application case: evaluate each expression
left-to-right, threading the store, collecting the values.  `ev` is the
evaluator at the next fuel level. -/
def evalArgsWith (ev : Expr → Nat → Store → Except Err (Value × Store)) :
    List Expr → Nat → Store → Except Err (List Value × Store)
  | [], _, st => .ok ([], st)
  | e :: es, r, st =>
    match ev e r st with
    | .error ε => .error ε
    | .ok (v, st1) =>
      match evalArgsWith ev es r st1 with
      | .error ε => .error ε
      | .ok (vs, st2) => .ok (v :: vs, st2)

/-- The `begin` loop: evaluate each expression in order, returning the last
result; with no expressions the named return keeps its zero value `nil`. -/
def evalSeqWith (ev : Expr → Nat → Store → Except Err (Value × Store)) :
    List Expr → Nat → Store → Value → Except Err (Value × Store)
  | [], _, st, acc => .ok (acc, st)
  | e :: es, r, st, _ =>
    match ev e r st with
    | .error ε => .error ε
    | .ok (v, st1) => evalSeqWith ev es r st1 v

/-- Go `func apply(p value, args []value) value`: a compiled-in function is
invoked directly; a `proc` allocates one fresh frame whose parent is the
closure's captured frame, binds parameters positionally and evaluates the
body there (`ev` evaluates the body); any other value hits the logging
default branch and returns the zero value `nil`. -/
def applyWith (ev : Expr → Nat → Store → Except Err (Value × Store)) :
    Value → List Value → Store → Except Err (Value × Store)
  | .prim p, args, st =>
    match applyPrim p args with
    | .ok v => .ok (v, st)
    | .error ε => .error ε
  | .closure params body en, args, st =>
    (bindArgs params args []).bind
      (fun binds => ev body st.length (st ++ [⟨binds, some en⟩]))
  | _, _, st => .ok (.nil, st)

/-- Go `func eval(e expr, en *env) value`, with `r` the index of `en` in
the store.  Dispatch follows the source exactly: numbers are returned
unchanged; a symbol is resolved through `Find` (nil-dereference panic when
unbound); a list dispatches on its first element (`e[0]` panics on an empty
list) against the six special-form keywords, any other head being an
application, whose operands `e[1:]` are evaluated left-to-right BEFORE the
operator `e[0]` (`apply(eval(e[0], en), values)` runs after the operand
loop); any other dynamic type (a Boolean, the nil interface) hits the
logging default branch and returns the zero value `nil`.  Each recursive
call descends one fuel level. -/
def eval : Nat → Expr → Nat → Store → Except Err (Value × Store)
  | 0, _, _, _ => .error .fuel
  | n + 1, e, r, st =>
    match e with
    | .num q => .ok (.num q, st)
    | .bool _ => .ok (.nil, st)
    | .nil => .ok (.nil, st)
    | .sym s =>
      foundCase (envFind st r s) (fun j => .ok (storeGetVar st j s, st))
    | .list es =>
      match es.get? 0 with
      | none => .error .indexOutOfRange
      | some h =>
        match h with
        | .sym "quote" =>
          (match es.get? 1 with
           | none => .error .indexOutOfRange
           | some e1 => .ok (Value.ofExpr e1, st))
        | .sym "if" =>
          (match es.get? 1 with
           | none => .error .indexOutOfRange
           | some c =>
             match eval n c r st with
             | .error ε => .error ε
             | .ok (cv, st1) =>
               match cv with
               | .bool true =>
                 (match es.get? 2 with
                  | none => .error .indexOutOfRange
                  | some e2 => eval n e2 r st1)
               | .bool false =>
                 (match es.get? 3 with
                  | none => .error .indexOutOfRange
                  | some e3 => eval n e3 r st1)
               | _ => .error .typeAssert)
        | .sym "set!" =>
          (match es.get? 1 with
           | none => .error .indexOutOfRange
           | some t =>
             match t with
             | .sym s =>
               foundCase (envFind st r s) (fun j =>
                 match es.get? 2 with
                 | none => .error .indexOutOfRange
                 | some e2 =>
                   (eval n e2 r st).bind
                     (fun p => .ok (.str "ok", storeSet p.2 j s p.1)))
             | _ => .error .typeAssert)
        | .sym "define" =>
          (match es.get? 1 with
           | none => .error .indexOutOfRange
           | some t =>
             match t with
             | .sym s =>
               match es.get? 2 with
               | none => .error .indexOutOfRange
               | some e2 =>
                 (eval n e2 r st).bind
                   (fun p => .ok (.str "ok", storeSet p.2 r s p.1))
             | _ => .error .typeAssert)
        | .sym "lambda" =>
          (match es.get? 1 with
           | none => .error .indexOutOfRange
           | some p1 =>
             match p1 with
             | .list ps =>
               (match symsOf ps with
                | none => .error .typeAssert
                | some params =>
                  match es.get? 2 with
                  | none => .error .indexOutOfRange
                  | some body => .ok (.closure params body r, st))
             | _ => .error .typeAssert)
        | .sym "begin" =>
          evalSeqWith (fun e2 r2 st2 => eval n e2 r2 st2) (es.drop 1) r st .nil
        | _ =>
          match evalArgsWith (fun e2 r2 st2 => eval n e2 r2 st2) (es.drop 1) r st with
          | .error ε => .error ε
          | .ok (args, st1) =>
            match eval n h r st1 with
            | .error ε => .error ε
            | .ok (p, st2) =>
              applyWith (fun e2 r2 st2 => eval n e2 r2 st2) p args st2

/-- `apply` at a given fuel level, as invoked from `eval`. -/
def applyVal (n : Nat) : Value → List Value → Store → Except Err (Value × Store) :=
  applyWith (fun e r st => eval n e r st)

/-- Evaluate one top-level expression against the pristine global
environment (fuel 40 covers every program considered here) and keep the
resulting value. -/
def run (e : Expr) : Except Err Value :=
  match eval 40 e 0 globalenv with
  | .ok (v, _) => .ok v
  | .error ε => .error ε

/-- Evaluate a sequence of top-level expressions against the global
environment as the Repl does line by line, threading the mutated
environment, and keep the last value. -/
def runSeq (es : List Expr) : Except Err Value :=
  match evalSeqWith (fun e r st => eval 40 e r st) es 0 globalenv Value.nil with
  | .ok (v, _) => .ok v
  | .error ε => .error ε

/-- Value of a digit string by Horner's rule; `none` if any character is
not a decimal digit.  The empty list is `some 0` (validity of an empty
part is checked by the caller). -/
def digitsVal (cs : List Char) : Option Nat :=
  cs.foldl
    (fun acc c =>
      acc.bind (fun m => if c.isDigit then some (10 * m + (c.toNat - 48)) else none))
    (some 0)

/-- Modelled subset of `strconv.ParseFloat`: an optional sign followed by
decimal digits with at most one decimal point and at least one digit.
Exponents, hexadecimal floats and the `Inf`/`NaN` words are not modelled;
no claim depends on them — the claims touch only integer literals and
symbol tokens. -/
def parseFloat (s : String) : Option Q :=
  let signed : Int × List Char :=
    match s.data with
    | '-' :: r => (-1, r)
    | '+' :: r => (1, r)
    | r => (1, r)
  match (signed.2.span (fun c => c ≠ '.') : List Char × List Char) with
  | (ip, []) =>
    if ip.isEmpty then none
    else (digitsVal ip).map (fun m => qnorm (signed.1 * (m : Int)) 1)
  | (ip, _ :: fp) =>
    if ip.isEmpty ∧ fp.isEmpty then none
    else if fp.contains '.' then none
    else
      match digitsVal ip, digitsVal fp with
      | some m, some k =>
        some (qnorm (signed.1 * ((m : Int) * (10 ^ fp.length : Nat) + (k : Int))) (10 ^ fp.length))
      | _, _ => none

/-- The atom case of `readFrom`: a token that parses as a float becomes a
`number`, anything else stays a `symbol`. -/
def parseAtom (t : String) : Expr :=
  match parseFloat t with
  | some q => .num q
  | none => .sym t

/-- The `for (*tokens)[0] != ")" { L = append(L, readFrom(tokens)) }` loop
of the `(` case: collect sub-expressions until a close paren.  Indexing an
exhausted token slice in the loop guard is the index-out-of-range panic.
`rf` reads one sub-expression; the fuel only bounds the embedding's
recursion. -/
def readListWith (rf : List String → Except Err (Expr × List String)) :
    Nat → List String → Except Err (List Expr × List String)
  | 0, _ => .error .fuel
  | _ + 1, [] => .error .indexOutOfRange
  | n + 1, t :: ts =>
    if t = ")" then .ok ([], ts)
    else
      match rf (t :: ts) with
      | .error ε => .error ε
      | .ok (e, ts1) =>
        match readListWith rf n ts1 with
        | .error ε => .error ε
        | .ok (es, ts2) => .ok (e :: es, ts2)

/-- Go `func readFrom(tokens *[]string) expr`.  On an exhausted token
slice the source logs "unexpected EOF while reading" (log.Print does not
abort) and then panics indexing `(*tokens)[0]` — an index-out-of-range
fatal error.  On `(` it reads a list.  On an unmatched `)` it logs
"unexpected )" and RETURNS NIL — a value, not an abort.  Anything else is
an atom. -/
def readFrom : Nat → List String → Except Err (Expr × List String)
  | 0, _ => .error .fuel
  | _ + 1, [] => .error .indexOutOfRange
  | n + 1, t :: ts =>
    match t with
    | "(" =>
      (match readListWith (fun ts2 => readFrom n ts2) n ts with
       | .error ε => .error ε
       | .ok (es, ts1) => .ok (.list es, ts1))
    | ")" => .ok (.nil, ts)
    | _ => .ok (parseAtom t, ts)

/-! Concrete programs used by the claims. -/

/-- `(car (cons 1 2))`. -/
def carConsE : Expr := .list [.sym "car", .list [.sym "cons", .num 1, .num 2]]

/-- `(cdr (cons 1 2))`. -/
def cdrConsE : Expr := .list [.sym "cdr", .list [.sym "cons", .num 1, .num 2]]

/-- `((lambda z z) 1 2 3)`. -/
def variadicAppE : Expr :=
  .list [.list [.sym "lambda", .sym "z", .sym "z"], .num 1, .num 2, .num 3]

/-- `(f (begin (define f +) 1) 2)` — the operator symbol `f` is unbound
until the first operand's side effect defines it. -/
def operandDefinesPlusE : Expr :=
  .list [.sym "f",
    .list [.sym "begin", .list [.sym "define", .sym "f", .sym "+"], .num 1],
    .num 2]

/-- `(g (begin (define g <=) 1) 2)` — as above with `<=`. -/
def operandDefinesLeE : Expr :=
  .list [.sym "g",
    .list [.sym "begin", .list [.sym "define", .sym "g", .sym "<="], .num 1],
    .num 2]

/-- `((lambda (x) x) 1 2)` — one parameter, two arguments. -/
def extraArgsE : Expr :=
  .list [.list [.sym "lambda", .list [.sym "x"], .sym "x"], .num 1, .num 2]

/-- `((lambda (x y) (- x y)) 10 3)` — exact positional binding. -/
def twoParamAppE : Expr :=
  .list [.list [.sym "lambda", .list [.sym "x", .sym "y"],
           .list [.sym "-", .sym "x", .sym "y"]],
    .num 10, .num 3]

/-- `(define make-adder (lambda (n) (lambda (x) (+ x n))))`. -/
def makeAdderDef : Expr :=
  .list [.sym "define", .sym "make-adder",
    .list [.sym "lambda", .list [.sym "n"],
      .list [.sym "lambda", .list [.sym "x"], .list [.sym "+", .sym "x", .sym "n"]]]]

/-- `(define add5 (make-adder 5))`. -/
def add5Def : Expr := .list [.sym "define", .sym "add5", .list [.sym "make-adder", .num 5]]

/-- `(add5 3)`. -/
def add5Call : Expr := .list [.sym "add5", .num 3]

/-- `(define y 1)`. -/
def defineYE : Expr := .list [.sym "define", .sym "y", .num 1]

/-- `(define g (lambda (x) (+ x y)))` — `g` closes over the global `y`. -/
def defineGE : Expr :=
  .list [.sym "define", .sym "g",
    .list [.sym "lambda", .list [.sym "x"], .list [.sym "+", .sym "x", .sym "y"]]]

/-- `(g 0)`. -/
def callGE : Expr := .list [.sym "g", .num 0]

/-- `(set! y 10)`. -/
def setYE : Expr := .list [.sym "set!", .sym "y", .num 10]

/-- `(+ 1 2 3)`. -/
def plusFoldE : Expr := .list [.sym "+", .num 1, .num 2, .num 3]

/-- `(- 10 1 2)`. -/
def minusFoldE : Expr := .list [.sym "-", .num 10, .num 1, .num 2]

/-- `(+)` — zero arguments. -/
def plusZeroE : Expr := .list [.sym "+"]

/-- `(*)` — zero arguments. -/
def mulZeroE : Expr := .list [.sym "*"]

/-- A two-frame store: the outer frame binds `y`, the inner frame (index
1, the current one) binds nothing — the concrete chain used to witness
`set!` mutating an ancestor binding. -/
def demoStore : Store := [⟨[("y", .num 1)], none⟩, ⟨[], some 0⟩]

/-! Helper lemmas. -/

/-- Binding positionally with too few arguments hits the `args[i]` index
panic, whatever the accumulated map. -/
theorem bindArgs_short :
    ∀ (ps : List Symbol) (bs : List Value) (acc : Vars),
      bs.length < ps.length → bindArgs ps bs acc = .error .indexOutOfRange := by
  intro ps
  induction ps with
  | nil => intro bs acc h; exact absurd h (Nat.not_lt_zero _)
  | cons p ps ih =>
    intro bs acc h
    cases bs with
    | nil => rfl
    | cons b bs2 => exact ih bs2 (varsSet acc p b) (Nat.lt_of_succ_lt_succ h)

/-- The reducer loop on all-number arguments computes the left fold. -/
theorem foldNums_map_num (f : Q → Q → Q) :
    ∀ (ns : List Q) (q : Q), foldNums f q (ns.map Value.num) = .ok (ns.foldl f q)
  | [], _ => rfl
  | n :: ns, q => foldNums_map_num f ns (f q n)

/-- `storeSet` replaces only the frame it addresses; all other frames are
returned unchanged. -/
theorem storeSet_get_ne :
    ∀ (st : Store) (j : Nat) (s : Symbol) (v : Value) (r : Nat),
      j ≠ r → (storeSet st j s v).get? r = st.get? r := by
  intro st
  induction st with
  | nil => intro j s v r _; cases j <;> rfl
  | cons f fs ih =>
    intro j s v r hne
    cases j with
    | zero =>
      cases r with
      | zero => exact absurd rfl hne
      | succ r2 => rfl
    | succ j2 =>
      cases r with
      | zero => rfl
      | succ r2 => exact ih j2 s v r2 (fun h => hne (congrArg Nat.succ h))

/-! Claim theorems. -/

/-- Claim C1, counterexample: `(car (cons 1 2))` does not evaluate to `1`.
`cons` is not bound in the global environment, so the operator lookup dies
in `Find` (nil-pointer dereference) and evaluation returns no value. -/
theorem c1_car_cons_not_one : run carConsE ≠ .ok (.num 1) := by
  have h : run carConsE = .error .nilDeref := rfl
  rw [h]
  intro hh
  exact Except.noConfusion hh

/-- Claim C1, amended: the global environment binds none of `cons`, `car`,
`cdr` (its primitives are only `#t #f + - * / <=`), so `(car (cons 1 2))`
and `(cdr (cons 1 2))` both fail with the unbound-symbol nil-dereference
panic instead of evaluating to `1` and `(2)`. -/
theorem c1_cons_car_cdr_absent :
    varsLookup globalVars "cons" = none ∧ varsLookup globalVars "car" = none ∧
    varsLookup globalVars "cdr" = none ∧
    run carConsE = .error .nilDeref ∧ run cdrConsE = .error .nilDeref :=
  ⟨rfl, rfl, rfl, rfl, rfl⟩

/-- Claim C2, counterexample: `((lambda z z) 1 2 3)` does not evaluate to
the list `(1 2 3)`: the `lambda` case asserts `e[1].([]expr)`, which
panics on the bare symbol `z`, so evaluation fails with a type-assertion
error. -/
theorem c2_variadic_lambda_fails :
    run variadicAppE = .error .typeAssert ∧
    run variadicAppE ≠ .ok (.list [.num 1, .num 2, .num 3]) := by
  refine ⟨rfl, ?_⟩
  have h : run variadicAppE = .error .typeAssert := rfl
  rw [h]
  intro hh
  exact Except.noConfusion hh

/-- Claim C2, amended: a `lambda` whose parameter position is a single
symbol rather than a list always fails with the `e[1].([]expr)`
type-assertion panic — there is no variadic binding, and in particular
`((lambda z z) 1 2 3)` is a fatal type error rather than `(1 2 3)`. -/
theorem c2_symbol_params_type_error :
    (∀ (fuel : Nat) (st : Store) (r : Nat) (s : Symbol) (body : Expr),
        eval (fuel + 1) (.list [.sym "lambda", .sym s, body]) r st = .error .typeAssert) ∧
    run variadicAppE = .error .typeAssert :=
  ⟨fun _ _ _ _ _ => rfl, rfl⟩

/-- Claim C3, counterexample: with `g` initially unbound, the application
`(g (begin (define g <=) 1) 2)` evaluates successfully to `#t`.  Had the
operator been evaluated before the operands, the lookup of `g` would have
hit the unbound-symbol panic; instead the first operand's `define` runs
first and binds `g`, so the operator is evaluated before `apply` but AFTER
the operands. -/
theorem c3_operand_defines_operator :
    varsLookup globalVars "g" = none ∧ run operandDefinesLeE = .ok (.bool true) :=
  ⟨rfl, rfl⟩

/-- Claim C3, amended: in an application form the operands `e[1:]` are
evaluated left-to-right FIRST and the operator `e[0]` is evaluated only
afterwards (just before `apply`), observably: with `f` unbound,
`(f (begin (define f +) 1) 2)` evaluates to `3`. -/
theorem c3_operands_before_operator :
    varsLookup globalVars "f" = none ∧ run operandDefinesPlusE = .ok (.num 3) :=
  ⟨rfl, rfl⟩

/-- Claim C4, counterexample: applying the one-parameter closure
`(lambda (x) x)` to TWO arguments is not an arity error: the binding loop
ranges over the parameters only, the extra argument is silently ignored,
and the call returns `1`. -/
theorem c4_extra_args_ignored : run extraArgsE = .ok (.num 1) := rfl

/-- Claim C4, amended: applying a closure to FEWER arguments than
parameters is a fatal error (`args[i]` index out of range); extra
arguments are silently ignored (see the counterexample); with matching
counts the parameters are bound positionally one-to-one in a fresh child
frame of the captured environment and the body is evaluated there, so
`((lambda (x y) (- x y)) 10 3)` evaluates to `7`. -/
theorem c4_short_args_fatal :
    (∀ (fuel : Nat) (params : List Symbol) (body : Expr) (en : Nat)
        (st : Store) (bs : List Value),
        bs.length < params.length →
        applyVal fuel (.closure params body en) bs st = .error .indexOutOfRange) ∧
    run twoParamAppE = .ok (.num 7) := by
  refine ⟨?_, rfl⟩
  intro fuel params body en st bs h
  have key : applyVal fuel (.closure params body en) bs st
      = (bindArgs params bs []).bind
          (fun binds => eval fuel body st.length (st ++ [⟨binds, some en⟩])) := rfl
  rw [key, bindArgs_short params bs [] h]
  rfl

/-- Witness for C4: a one-parameter closure applied to no arguments fails
with the index panic. -/
theorem c4_short_args_witness :
    applyVal 1 (.closure ["x"] (.sym "x") 0) [] globalenv = .error .indexOutOfRange :=
  c4_short_args_fatal.1 1 ["x"] (.sym "x") 0 globalenv [] (Nat.zero_lt_succ 0)

/-- Claim C5: `(set! s e)` with `s` bound somewhere in the chain mutates
the binding in the nearest enclosing frame that already binds `s` (the
frame `Find` returns), leaving every other frame — in particular the
current one — untouched; with `s` unbound everywhere it fails with the
unbound-symbol failure (`Find`'s nil dereference) and never creates a
binding. -/
theorem c5_set_bang_rebinds :
    (∀ (fuel : Nat) (st : Store) (r : Nat) (s : Symbol) (e2 : Expr),
        envFind st r s = none →
        eval (fuel + 1) (.list [.sym "set!", .sym s, e2]) r st = .error .nilDeref) ∧
    (∀ (fuel : Nat) (st : Store) (r : Nat) (s : Symbol) (e2 : Expr) (j : Nat)
        (v : Value) (st1 : Store),
        envFind st r s = some j →
        eval fuel e2 r st = .ok (v, st1) →
        eval (fuel + 1) (.list [.sym "set!", .sym s, e2]) r st
          = .ok (.str "ok", storeSet st1 j s v)) ∧
    (∀ (st : Store) (j : Nat) (s : Symbol) (v : Value) (r : Nat),
        j ≠ r → (storeSet st j s v).get? r = st.get? r) := by
  refine ⟨?_, ?_, storeSet_get_ne⟩
  · intro fuel st r s e2 hF
    have key : eval (fuel + 1) (.list [.sym "set!", .sym s, e2]) r st
        = foundCase (envFind st r s) (fun j =>
            (eval fuel e2 r st).bind
              (fun p => .ok (.str "ok", storeSet p.2 j s p.1))) := rfl
    rw [key, hF]
    rfl
  · intro fuel st r s e2 j v st1 hF hE
    have key : eval (fuel + 1) (.list [.sym "set!", .sym s, e2]) r st
        = foundCase (envFind st r s) (fun j2 =>
            (eval fuel e2 r st).bind
              (fun p => .ok (.str "ok", storeSet p.2 j2 s p.1))) := rfl
    rw [key, hF]
    show Except.bind (eval fuel e2 r st)
        (fun p => Except.ok (Value.str "ok", storeSet p.2 j s p.1))
      = Except.ok (Value.str "ok", storeSet st1 j s v)
    rw [hE]
    rfl

/-- Witness for C5: in `demoStore`, where the current frame 1 binds
nothing and its parent frame 0 binds `y`, `(set! y 5)` succeeds and
mutates frame 0. -/
theorem c5_set_bang_witness :
    eval 2 (.list [.sym "set!", .sym "y", .num 5]) 1 demoStore
      = .ok (.str "ok", storeSet demoStore 0 "y" (.num 5)) :=
  c5_set_bang_rebinds.2.1 1 demoStore 1 "y" (.num 5) 0 (.num 5) demoStore rfl rfl

/-- Claim C6, counterexample: parsing a token stream beginning with an
unmatched `)` is NOT abandoned with an error — `readFrom` logs and then
returns the nil interface value as the parse result. -/
theorem c6_close_paren_returns_nil : readFrom 5 [")"] = .ok (.nil, []) := rfl

/-- Claim C6, amended: exhausting the token stream before a form
completes is a fatal index-out-of-range panic (after logging "unexpected
EOF"), both at the top level and inside an open list; an unmatched `)`
however merely logs "unexpected )" and returns nil as the parsed value
instead of abandoning parsing. -/
theorem c6_eof_fatal_close_nil :
    (∀ (fuel : Nat), readFrom (fuel + 1) [] = .error .indexOutOfRange) ∧
    readFrom 5 ["(", "1"] = .error .indexOutOfRange ∧
    (∀ (fuel : Nat) (ts : List String), readFrom (fuel + 1) (")" :: ts) = .ok (.nil, ts)) :=
  ⟨fun _ => rfl, rfl, fun _ _ => rfl⟩

/-- Claim C7: closures capture their defining environment by reference at
`lambda` time: `(define make-adder (lambda (n) (lambda (x) (+ x n))))`,
`(define add5 (make-adder 5))`, `(add5 3)` yields `8`; and a closure over
the global `y` sees `y`'s mutation by a later `set!` — `(g 0)` yields `1`
before and `10` after `(set! y 10)`. -/
theorem c7_closure_capture :
    runSeq [makeAdderDef, add5Def, add5Call] = .ok (.num 8) ∧
    runSeq [defineYE, defineGE, callGE] = .ok (.num 1) ∧
    runSeq [defineYE, defineGE, setYE, callGE] = .ok (.num 10) :=
  ⟨rfl, rfl, rfl⟩

/-- Claim C8: each arithmetic primitive computes a left fold over its
number arguments starting from the first; with zero arguments the `a[0]`
access is a fatal index panic (the arity error), shown through `eval` for
`(+)` and `(*)`; concretely `(+ 1 2 3)` is `6` and `(- 10 1 2)` is `7`. -/
theorem c8_arith_folds :
    (∀ (q : Q) (ns : List Q),
        applyPrim .add (.num q :: ns.map Value.num)
          = .ok (.num (ns.foldl (fun a b => a + b) q))) ∧
    (∀ (q : Q) (ns : List Q),
        applyPrim .sub (.num q :: ns.map Value.num)
          = .ok (.num (ns.foldl (fun a b => a - b) q))) ∧
    (∀ (q : Q) (ns : List Q),
        applyPrim .mul (.num q :: ns.map Value.num)
          = .ok (.num (ns.foldl (fun a b => a * b) q))) ∧
    (∀ (q : Q) (ns : List Q),
        applyPrim .div (.num q :: ns.map Value.num)
          = .ok (.num (ns.foldl (fun a b => a / b) q))) ∧
    run plusZeroE = .error .indexOutOfRange ∧
    run mulZeroE = .error .indexOutOfRange ∧
    run plusFoldE = .ok (.num 6) ∧
    run minusFoldE = .ok (.num 7) := by
  refine ⟨?_, ?_, ?_, ?_, rfl, rfl, rfl, rfl⟩
  · intro q ns
    show (foldNums (fun a b => a + b) q (ns.map Value.num)).map Value.num
        = .ok (.num (ns.foldl (fun a b => a + b) q))
    rw [foldNums_map_num]
    rfl
  · intro q ns
    show (foldNums (fun a b => a - b) q (ns.map Value.num)).map Value.num
        = .ok (.num (ns.foldl (fun a b => a - b) q))
    rw [foldNums_map_num]
    rfl
  · intro q ns
    show (foldNums (fun a b => a * b) q (ns.map Value.num)).map Value.num
        = .ok (.num (ns.foldl (fun a b => a * b) q))
    rw [foldNums_map_num]
    rfl
  · intro q ns
    show (foldNums (fun a b => a / b) q (ns.map Value.num)).map Value.num
        = .ok (.num (ns.foldl (fun a b => a / b) q))
    rw [foldNums_map_num]
    rfl

/-- Claim C9, counterexample: a Boolean reaching `eval` is NOT
self-evaluating: it matches none of the dispatch cases, falls into the
logging default branch, and the zero value nil is returned instead of the
Boolean. -/
theorem c9_bool_not_self_eval :
    run (Expr.bool true) = .ok Value.nil ∧
    run (Expr.bool true) ≠ .ok (.bool true) := by
  refine ⟨rfl, ?_⟩
  have h : run (Expr.bool true) = .ok Value.nil := rfl
  rw [h]
  intro hh
  exact Value.noConfusion (Except.ok.inj hh)

/-- Claim C9, amended: for every environment and store, `eval` returns a
Number unchanged (self-evaluating, no lookup, no error), but a Boolean
falls into the unknown-expression default branch and comes back as the
zero value nil, not as the same Boolean. -/
theorem c9_number_self_eval_bool_nil :
    (∀ (fuel : Nat) (st : Store) (r : Nat) (q : Q),
        eval (fuel + 1) (.num q) r st = .ok (.num q, st)) ∧
    (∀ (fuel : Nat) (st : Store) (r : Nat) (b : Bool),
        eval (fuel + 1) (.bool b) r st = .ok (.nil, st)) :=
  ⟨fun _ _ _ _ => rfl, fun _ _ _ _ => rfl⟩

/-- Claim C10: whenever a well-formed `(define s e)` or `(set! s e)` form
evaluates successfully, the value produced is the Go string `"ok"` (never
the bound value), which is what the Repl then prints after `==>`. -/
theorem c10_define_set_return_ok :
    (∀ (fuel : Nat) (st : Store) (r : Nat) (s : Symbol) (e : Expr)
        (v : Value) (st1 : Store),
        eval (fuel + 1) (.list [.sym "define", .sym s, e]) r st = .ok (v, st1) →
        v = .str "ok") ∧
    (∀ (fuel : Nat) (st : Store) (r : Nat) (s : Symbol) (e : Expr)
        (v : Value) (st1 : Store),
        eval (fuel + 1) (.list [.sym "set!", .sym s, e]) r st = .ok (v, st1) →
        v = .str "ok") := by
  constructor
  · intro fuel st r s e v st1 h
    have key : eval (fuel + 1) (.list [.sym "define", .sym s, e]) r st
        = (eval fuel e r st).bind
            (fun p => .ok (.str "ok", storeSet p.2 r s p.1)) := rfl
    rw [key] at h
    cases hE : eval fuel e r st with
    | ok p =>
      rw [hE] at h
      have h2 : (Except.ok ((Value.str "ok", storeSet p.2 r s p.1) : Value × Store)
          : Except Err (Value × Store)) = .ok (v, st1) := h
      exact (congrArg Prod.fst (Except.ok.inj h2)).symm
    | error ε =>
      rw [hE] at h
      exact Except.noConfusion h
  · intro fuel st r s e v st1 h
    have key : eval (fuel + 1) (.list [.sym "set!", .sym s, e]) r st
        = foundCase (envFind st r s) (fun j =>
            (eval fuel e r st).bind
              (fun p => .ok (.str "ok", storeSet p.2 j s p.1))) := rfl
    rw [key] at h
    cases hF : envFind st r s with
    | none =>
      rw [hF] at h
      exact Except.noConfusion h
    | some j =>
      rw [hF] at h
      have h3 : (eval fuel e r st).bind
          (fun p => .ok (.str "ok", storeSet p.2 j s p.1)) = .ok (v, st1) := h
      cases hE : eval fuel e r st with
      | ok p =>
        rw [hE] at h3
        have h4 : (Except.ok ((Value.str "ok", storeSet p.2 j s p.1) : Value × Store)
            : Except Err (Value × Store)) = .ok (v, st1) := h3
        exact (congrArg Prod.fst (Except.ok.inj h4)).symm
      | error ε =>
        rw [hE] at h3
        exact Except.noConfusion h3

/-- Witness for C10: `(define x 5)` in the global environment returns
exactly the string `"ok"` together with the updated store, and the claim
theorem applies to it. -/
theorem c10_ok_witness :
    eval 2 (.list [.sym "define", .sym "x", .num 5]) 0 globalenv
      = .ok (.str "ok", storeSet globalenv 0 "x" (.num 5)) ∧
    Value.str "ok" = Value.str "ok" :=
  ⟨rfl, c10_define_set_return_ok.1 1 globalenv 0 "x" (.num 5) (.str "ok")
      (storeSet globalenv 0 "x" (.num 5)) rfl⟩

end Scm
